import Mathlib

/-!
# Verification of the Claims Adjudication & Payout Consensus Engine

Shallow embedding of the rideshare-bridge-api insurance core:
payout eligibility tiering and emergency-fund gating (routes/payouts),
fraud scoring (services/advanced-fraud-detection and the legacy scorer in
routes/claims), validator staking/reputation/slashing (routes/validators),
driver-profile juror checks (routes/jury) and the review-session consensus
tracker (routes/review).  JavaScript numbers are modelled as rationals,
timestamps as integers (milliseconds), and the mutable route handlers as
pure state-passing functions.
-/

namespace RideshareBridge

/-! ## Payout decision engine (routes/payouts) -/

/-- The fields of a claim record that the payout engine reads. -/
structure PayoutClaim where
  claimId : String
  claimAmount : ℚ
deriving Repr, DecidableEq

/-- The validationResults object of POST /api/payouts/execute. -/
structure ValidationResults where
  aiApproved : Bool
  communityConsensus : Bool
  fraudScore : ℚ
  jurorApprovalRate : ℚ
deriving Repr, DecidableEq

/-- Trigger tiers produced by the payout engine. -/
inductive PayoutTrigger where
  | aiApproved
  | communityConsensus
  | manualReviewRequired
  | fraudDetected
  | insufficientValidation
  | manualOverride
  | emergencyOverride
deriving Repr, DecidableEq

/-- Result object of calculatePayoutEligibility (confidence field retained,
processingTime/reason strings dropped as display-only). -/
structure EligibilityResult where
  eligible : Bool
  trigger : PayoutTrigger
  confidence : ℚ
deriving Repr, DecidableEq

/-- calculatePayoutEligibility, routes/payouts: the if-chain evaluated in
source order — AI auto-approval, then community consensus, then the
high-value manual-review gate, then fraud detection, else insufficient
validation. -/
def calculatePayoutEligibility (claim : PayoutClaim) (vr : ValidationResults) :
    EligibilityResult :=
  if claim.claimAmount ≤ 1000 ∧ vr.fraudScore < 3/10 ∧ vr.aiApproved = true then
    ⟨true, .aiApproved, 95/100⟩
  else if vr.communityConsensus = true ∧ vr.jurorApprovalRate ≥ 66/100 ∧
      vr.fraudScore < 1/2 then
    ⟨true, .communityConsensus, vr.jurorApprovalRate⟩
  else if claim.claimAmount > 50000 then
    ⟨false, .manualReviewRequired, 0⟩
  else if vr.fraudScore ≥ 7/10 then
    ⟨false, .fraudDetected, 0⟩
  else
    ⟨false, .insufficientValidation, 0⟩

/-! ## Emergency fund (routes/payouts) -/

/-- The emergencyFund module state. -/
structure EmergencyFund where
  totalFund : ℚ
  availableAmount : ℚ
  lastActivation : Option Int
deriving Repr, DecidableEq

/-- Pool statistics consulted by checkEmergencyConditions.  The source draws
them from a fixed mock constant (mockPoolStats below); the condition formula
is parameterized over them. -/
structure PoolStats where
  totalFunds : ℚ
  pendingClaims : ℚ
  recentClaimsCount : ℕ
  availableLiquidity : ℚ
deriving Repr, DecidableEq

/-- The emergencyActive disjunction of checkEmergencyConditions:
pool utilization > 0.8, or recent claims > 50, or liquidity < 10% of fund. -/
def checkEmergencyConditions (stats : PoolStats) : Bool :=
  decide (stats.pendingClaims / stats.totalFunds > 8/10) ||
  decide (stats.recentClaimsCount > 50) ||
  decide (stats.availableLiquidity < stats.totalFunds * (1/10))

/-- The hard-coded mockPoolStats of checkEmergencyConditions. -/
def mockPoolStats : PoolStats :=
  ⟨5000000, 3800000, 45, 600000⟩

/-- Outcomes of POST /api/payouts/emergency. -/
inductive EmergencyOutcome where
  | validationFailed
  | conditionsNotMet
  | insufficientFunds
  | executed
deriving Repr, DecidableEq

/-- Valid values of the emergencyReason field (Joi schema). -/
def emergencyReasons : List String :=
  ["mass_event", "liquidity_crisis", "regulatory_order"]

/-- POST /api/payouts/emergency: Joi validation, then the
emergency-conditions gate, then the fund-availability gate; on success the
fund's available amount is debited by the payout amount and lastActivation
is stamped.  Every failure path returns the fund unchanged. -/
def emergencyRoute (claimId : String) (amount : ℚ)
    (emergencyReason authorizedBy : String) (stats : PoolStats)
    (fund : EmergencyFund) (now : Int) : EmergencyOutcome × EmergencyFund :=
  if claimId = "" ∨ ¬ amount > 0 ∨ emergencyReason ∉ emergencyReasons ∨
      authorizedBy = "" then
    (.validationFailed, fund)
  else if checkEmergencyConditions stats = false then
    (.conditionsNotMet, fund)
  else if amount > fund.availableAmount then
    (.insufficientFunds, fund)
  else
    (.executed,
      { fund with availableAmount := fund.availableAmount - amount,
                  lastActivation := some now })

/-! ## Risk scorer (services/advanced-fraud-detection) -/

/-- Recommendation actions of determineRecommendation. -/
inductive RecommendationAction where
  | reject
  | manualReview
  | communityReview
  | autoApprove
deriving Repr, DecidableEq

/-- determineRecommendation(fraudScore, confidence): REJECT only for
score ≥ 0.8 with confidence ≥ 0.8, then the 0.6 and 0.3 cutoffs. -/
def determineRecommendation (fraudScore confidence : ℚ) :
    RecommendationAction :=
  if fraudScore ≥ 8/10 ∧ confidence ≥ 8/10 then .reject
  else if fraudScore ≥ 6/10 then .manualReview
  else if fraudScore ≥ 3/10 then .communityReview
  else .autoApprove

/-- analyzeReportingDelay(incidentDate, submittedAt): the step function on
the delay in hours, first match wins. Timestamps in milliseconds. -/
def analyzeReportingDelay (incidentDate submittedAt : ℚ) : ℚ :=
  let delayHours := (submittedAt - incidentDate) / (1000 * 60 * 60)
  if delayHours < 1 then 3/10
  else if delayHours ≤ 24 then 1/10
  else if delayHours ≤ 168 then 4/10
  else 8/10

/-! ## Legacy fraud scorer (routes/claims, calculateFraudScore) -/

/-- Recommendation strings produced by the legacy calculateFraudScore. -/
inductive LegacyRecommendation where
  | autoApprove
  | communityReview
  | intensiveReview
deriving Repr, DecidableEq

/-- The assessment object returned by calculateFraudScore. -/
structure LegacyAssessment where
  fraudScore : ℚ
  confidence : ℚ
  redFlags : List String
  recommendation : LegacyRecommendation
deriving Repr, DecidableEq

/-- calculateFraudScore from routes/claims.  The two Math.random() draws and
the confidence draw are passed in as rTiming, rHistorical, rConfidence
(each meant to range over [0,1)); documentsCount is documents.length. -/
def calculateFraudScore (claimAmount : ℚ) (documentsCount : ℕ)
    (rTiming rHistorical rConfidence : ℚ) : LegacyAssessment :=
  let amountUnusual : ℚ := if claimAmount > 10000 then 3/10 else 0
  let timingSuspicious : ℚ := if rTiming > 8/10 then 2/10 else 0
  let documentQuality : ℚ := if documentsCount < 2 then 2/10 else 0
  let historicalPattern : ℚ := if rHistorical > 9/10 then 3/10 else 0
  let fraudScore := amountUnusual + timingSuspicious + documentQuality +
    historicalPattern
  let confidence := 3/4 + rConfidence * (1/4)
  let redFlags :=
    (if amountUnusual > 0 then ["amount_unusual"] else []) ++
    (if timingSuspicious > 0 then ["timing_suspicious"] else []) ++
    (if documentQuality > 0 then ["insufficient_documentation"] else []) ++
    (if historicalPattern > 0 then ["pattern_anomaly"] else [])
  let recommendation : LegacyRecommendation :=
    if fraudScore < 3/10 then .autoApprove
    else if fraudScore < 7/10 then .communityReview
    else .intensiveReview
  ⟨min fraudScore 1, confidence, redFlags, recommendation⟩

/-! ## Validator staking and reputation (routes/validators) -/

/-- The deactivationReason strings written by the stake route and by
executeSlashing. -/
inductive DeactivationReason where
  | stakeBelowMin
  | insufficientAfterSlash
deriving Repr, DecidableEq

/-- A validator record (fields the adjudication core reads and writes;
wallet identity and profile data carried externally). -/
structure Validator where
  stakedAmount : ℚ
  reputation : ℚ
  correctVotes : ℕ
  totalVotes : ℕ
  active : Bool
  deactivationReason : Option DeactivationReason
  lastSlashTime : Option Int
deriving Repr, DecidableEq

/-- stakingConfig.minimumStake. -/
def minimumStake : ℚ := 1000

/-- POST /api/validators/register: the Joi schema requires
stakeAmount ≥ minimumStake; a fresh validator starts at reputation 500,
active, with empty history. -/
def registerValidator (stakeAmount : ℚ) : Option Validator :=
  if stakeAmount < minimumStake then none
  else some ⟨stakeAmount, 500, 0, 0, true, none, none⟩

/-- updateValidatorReputation(address, correct): totalVotes increments;
a correct vote adds 5% of current reputation capped at 1000, an incorrect
one removes 10% floored at 0. -/
def updateValidatorReputation (v : Validator) (correct : Bool) : Validator :=
  if correct then
    { v with totalVotes := v.totalVotes + 1,
             correctVotes := v.correctVotes + 1,
             reputation := min 1000 (v.reputation + v.reputation * (5/100)) }
  else
    { v with totalVotes := v.totalVotes + 1,
             reputation := max 0 (v.reputation - v.reputation * (10/100)) }

/-- The active-status adjustment at the end of POST /api/validators/stake:
deactivate when the stake drops below the minimum; reactivate only a
validator previously deactivated for that same reason once its stake is
back at or above the minimum (the reason string is not cleared). -/
def stakeActiveAdjust (v : Validator) : Validator :=
  if v.stakedAmount < minimumStake ∧ v.active = true then
    { v with active := false, deactivationReason := some .stakeBelowMin }
  else if v.stakedAmount ≥ minimumStake ∧ v.active = false ∧
      v.deactivationReason = some .stakeBelowMin then
    { v with active := true }
  else v

/-- Stake modification actions (Joi: action ∈ increase, decrease). -/
inductive StakeAction where
  | increase
  | decrease
deriving Repr, DecidableEq

/-- POST /api/validators/stake: Joi requires a positive amount; a decrease
below zero is rejected with 422 leaving the record untouched; otherwise the
stake moves and the active flag is adjusted. -/
def modifyStake (v : Validator) (action : StakeAction) (amount : ℚ) :
    Validator :=
  if amount ≤ 0 then v
  else
    match action with
    | .increase => stakeActiveAdjust { v with stakedAmount := v.stakedAmount + amount }
    | .decrease =>
        if v.stakedAmount - amount < 0 then v
        else stakeActiveAdjust { v with stakedAmount := v.stakedAmount - amount }

/-- executeSlashing(address, reason, amount): removes amount% of the stake,
drops reputation by 50 floored at 0, stamps lastSlashTime, and deactivates
the validator when the remaining stake is below the minimum.  The slash
route always passes stakingConfig.slashPercentage = 10. -/
def executeSlashing (v : Validator) (percent : ℚ) (now : Int) : Validator :=
  let slashAmount := v.stakedAmount * percent / 100
  let v1 := { v with stakedAmount := v.stakedAmount - slashAmount,
                     reputation := max 0 (v.reputation - 50),
                     lastSlashTime := some now }
  if v1.stakedAmount < minimumStake then
    { v1 with active := false,
              deactivationReason := some .insufficientAfterSlash }
  else v1

/-- One mutating operation on a registered validator, as offered by the
validators router (stake modification, vote-result reputation update,
slashing at the configured 10%). -/
inductive VOp where
  | stake (action : StakeAction) (amount : ℚ)
  | voteResult (correct : Bool)
  | slash (now : Int)
deriving Repr

/-- Dispatch of one operation to the corresponding route logic. -/
def applyOp (v : Validator) : VOp → Validator
  | .stake action amount => modifyStake v action amount
  | .voteResult correct => updateValidatorReputation v correct
  | .slash now => executeSlashing v 10 now

/-- A sequence of operations applied in order. -/
def runOps (v : Validator) (ops : List VOp) : Validator :=
  ops.foldl applyOp v

/-! ## Validator jury-eligibility filter (routes/validators, routes/jury) -/

/-- Result of calculateValidatorEligibility (breakdown omitted). -/
structure ValidatorEligibility where
  eligible : Bool
  reason : Option String
  score : ℚ
deriving Repr, DecidableEq

/-- The 30-day cooling-off window in milliseconds. -/
def coolingOffMs : Int := 30 * 24 * 60 * 60 * 1000

/-- The recently-slashed test of calculateValidatorEligibility. -/
def recentlySlashed (v : Validator) (now : Int) : Bool :=
  match v.lastSlashTime with
  | none => false
  | some t => decide (now - t < coolingOffMs)

/-- The weighted eligibility score: 40% reputation (normalized by 1000,
capped), 30% stake (normalized by five times the minimum, capped), 30%
accuracy (defaulting to 0.15 with no vote history). -/
def eligibilityScore (v : Validator) : ℚ :=
  min (v.reputation / 1000) 1 * (4/10) +
  min (v.stakedAmount / (minimumStake * 5)) 1 * (3/10) +
  (if v.totalVotes > 0 then ((v.correctVotes : ℚ) / v.totalVotes) * (3/10)
   else 15/100)

/-- calculateValidatorEligibility: hard rejections for stake below the
minimum, reputation below 400 or a slash within the cooling-off window;
otherwise eligible exactly when the weighted score reaches 0.6. -/
def calculateValidatorEligibility (v : Validator) (now : Int) :
    ValidatorEligibility :=
  if v.stakedAmount < minimumStake then
    ⟨false, some "Insufficient stake", 0⟩
  else if v.reputation < 400 then
    ⟨false, some "Low reputation score", 0⟩
  else if recentlySlashed v now = true then
    ⟨false, some "Recently slashed - cooling off period", 0⟩
  else
    ⟨decide (eligibilityScore v ≥ 6/10), none, eligibilityScore v⟩

/-- The driver-profile fields read by checkJurorEligibility in the jury
router (accidentHistory modelled by its length). -/
structure DriverProfile where
  safetyScore : ℚ
  totalRides : ℕ
  accidentHistoryCount : ℕ
  poolContributions : ℚ
deriving Repr, DecidableEq

/-- checkJurorEligibility (routes/jury): the eligible flag is the
conjunction safetyScore ≥ 750, totalRides ≥ 500, empty accident history
(the pool-contribution requirement is displayed but not part of the
flag). -/
def checkJurorEligibility (p : DriverProfile) : Bool :=
  decide (p.safetyScore ≥ 750) && decide (p.totalRides ≥ 500) &&
  decide (p.accidentHistoryCount = 0)

/-! ## Review sessions and consensus (routes/review) -/

/-- A recorded vote (voteId dropped; timestamp is the submission time). -/
structure Vote where
  juror : String
  decision : String
  reasoning : String
  confidence : ℚ
  timestamp : Int
deriving Repr, DecidableEq

/-- Review-session statuses used by routes/review. -/
inductive ReviewStatus where
  | inReview
  | completed
  | noConsensus
deriving Repr, DecidableEq

/-- A review session as held in the reviews map. -/
structure Review where
  jurors : List String
  votes : List Vote
  deadline : Int
  status : ReviewStatus
  consensusThreshold : ℚ
  finalDecision : Option String
deriving Repr, DecidableEq

/-- The validDecisions list of the vote route. -/
def validDecisions : List String := ["approve", "deny", "need_info"]

/-- confidence handling of the vote route: a missing or zero (falsy)
confidence defaults to 0.75. -/
def confDefault : Option ℚ → ℚ
  | none => 3/4
  | some c => if c = 0 then 3/4 else c

/-- The decisions in first-occurrence order, as keys of the voteCount
object built by checkConsensus. -/
def decisionOrder (l : List String) : List String :=
  l.foldl (fun acc d => if d ∈ acc then acc else acc ++ [d]) []

/-- The leading-decision scan of checkConsensus: fold over the grouped
counts keeping the strictly largest count and its decision. -/
def leadFold (l : List String) : ℕ × Option String :=
  (decisionOrder l).foldl
    (fun acc d => if l.count d > acc.1 then (l.count d, some d) else acc)
    (0, none)

/-- The object returned by checkConsensus. -/
structure ConsensusResult where
  reached : Bool
  decision : Option String
  percentage : ℤ
deriving Repr, DecidableEq

/-- checkConsensus(review): with no votes, not reached; otherwise group the
recorded votes by decision, take the leading count, and compare the leading
share of the votes recorded so far against the session threshold. -/
def checkConsensus (r : Review) : ConsensusResult :=
  if r.votes = [] then ⟨false, none, 0⟩
  else
    let lead := leadFold (r.votes.map Vote.decision)
    ⟨decide ((lead.1 : ℚ) / (r.votes.length : ℚ) ≥ r.consensusThreshold),
     lead.2,
     round ((lead.1 : ℚ) / (r.votes.length : ℚ) * 100)⟩

/-- finalizeReview(review): on reached consensus, mark completed and record
the leading decision; otherwise mark no_consensus.  The function reads and
writes only the review record. -/
def finalizeReview (r : Review) : Review :=
  let c := checkConsensus r
  if c.reached then
    { r with status := .completed, finalDecision := c.decision }
  else
    { r with status := .noConsensus }

/-- Outcomes of POST /api/review/:reviewId/vote. -/
inductive VoteOutcome where
  | badRequest
  | forbidden
  | conflict
  | gone
  | ok
deriving Repr, DecidableEq

/-- The vote route, applied to an existing review: input validation (all
three fields present, decision among the valid strings), then the
panel-membership, duplicate-vote and deadline gates in source order; on
success the vote is appended and, when it is the last assigned juror's
vote, the review is finalized in the same request.  Every failure path
returns the review unchanged. -/
def voteRoute (r : Review) (juror decision reasoning : String)
    (confidence : Option ℚ) (now : Int) : VoteOutcome × Review :=
  if juror = "" ∨ decision = "" ∨ reasoning = "" then (.badRequest, r)
  else if decision ∉ validDecisions then (.badRequest, r)
  else if juror ∉ r.jurors then (.forbidden, r)
  else if juror ∈ r.votes.map Vote.juror then (.conflict, r)
  else if now > r.deadline then (.gone, r)
  else
    let v : Vote := ⟨juror, decision, reasoning, confDefault confidence, now⟩
    let r1 := { r with votes := r.votes ++ [v] }
    if r1.votes.length = r1.jurors.length then (.ok, finalizeReview r1)
    else (.ok, r1)

/-- The validator registry as seen by the review module: an association of
wallet addresses to validator records. -/
def ValidatorStore : Type := List (String × Validator)

/-- Finalization at system level: finalizeReview in routes/review reads and
writes only the review record and makes no call into the validator registry
(its body notes that reward distribution is left to production), so the
validator store passes through unchanged. -/
def finalizeReviewSystem (r : Review) (vs : ValidatorStore) :
    Review × ValidatorStore :=
  (finalizeReview r, vs)

/-! ## Claim C1 — high-value claims and the manual-review gate -/

/-- Claim C1, counterexample: a claim of 60,000 whose validation results
carry a reached community consensus (approval rate 0.8, fraud score 0.4) is
decided COMMUNITY_CONSENSUS with eligible = true — not
MANUAL_REVIEW_REQUIRED with eligible = false as the claim demands for every
consensus outcome.  The consensus branch of calculatePayoutEligibility is
evaluated before the high-value gate. -/
theorem c1_counterexample :
    (60000 : ℚ) > 50000 ∧
    calculatePayoutEligibility ⟨"claim-1", 60000⟩ ⟨true, true, 2/5, 4/5⟩ =
      ⟨true, .communityConsensus, 4/5⟩ := by
  refine ⟨by norm_num, ?_⟩
  norm_num [calculatePayoutEligibility]

/-- Claim C1, amended: for every claim whose amount exceeds 50,000, the
payout decision is MANUAL_REVIEW_REQUIRED with eligible = false for every
fraud score, provided the validation results do not already satisfy the
community-consensus branch (consensus with approval rate ≥ 0.66 and fraud
score < 0.5), which is evaluated first. -/
theorem c1_amended (claim : PayoutClaim) (vr : ValidationResults)
    (hamt : claim.claimAmount > 50000)
    (hcc : ¬ (vr.communityConsensus = true ∧ vr.jurorApprovalRate ≥ 66/100 ∧
      vr.fraudScore < 1/2)) :
    calculatePayoutEligibility claim vr = ⟨false, .manualReviewRequired, 0⟩ := by
  have h1 : ¬ (claim.claimAmount ≤ 1000 ∧ vr.fraudScore < 3/10 ∧
      vr.aiApproved = true) := by
    rintro ⟨h, -, -⟩
    linarith
  simp only [calculatePayoutEligibility, if_neg h1, if_neg hcc, if_pos hamt]

/-- Claim C1, witness for the amended theorem at a concrete input. -/
theorem c1_witness :
    (60000 : ℚ) > 50000 ∧
    calculatePayoutEligibility ⟨"claim-2", 60000⟩ ⟨false, false, 9/10, 0⟩ =
      ⟨false, .manualReviewRequired, 0⟩ :=
  ⟨by norm_num, c1_amended ⟨"claim-2", 60000⟩ ⟨false, false, 9/10, 0⟩
    (by norm_num) (by decide)⟩

/-! ## Claim C3 — validator jury-eligibility thresholds -/

/-- Claim C3, counterexample: a validator with reputation 700 (below 750),
stake 5000 and perfect accuracy is accepted by the eligibility filter —
its weighted score 0.88 clears the 0.6 bar and the hard reputation cutoff
in the source is 400, not 750. -/
theorem c3_counterexample :
    (700 : ℚ) < 750 ∧
    (calculateValidatorEligibility ⟨5000, 700, 10, 10, true, none, none⟩
      0).eligible = true := by
  refine ⟨by norm_num, ?_⟩
  norm_num [calculateValidatorEligibility, recentlySlashed, eligibilityScore,
    minimumStake]

/-- Claim C3, amended: the validator eligibility filter hard-rejects
stake below the minimum, reputation below 400, and a slash within the
30-day cooling-off window; among the remaining validators it accepts
exactly those whose weighted score (40% reputation, 30% stake, 30%
accuracy) reaches 0.6.  The 750 threshold appears only in the jury
router's driver-profile check, which tests the driver safety score
(≥ 750, with ≥ 500 rides and an empty accident history), not validator
reputation. -/
theorem c3_amended (v : Validator) (now : Int) :
    (v.reputation < 400 →
      (calculateValidatorEligibility v now).eligible = false) ∧
    ((calculateValidatorEligibility v now).eligible = true →
      minimumStake ≤ v.stakedAmount ∧ 400 ≤ v.reputation ∧
      recentlySlashed v now = false ∧
      6/10 ≤ (calculateValidatorEligibility v now).score) ∧
    (minimumStake ≤ v.stakedAmount → 400 ≤ v.reputation →
      recentlySlashed v now = false →
      ((calculateValidatorEligibility v now).eligible = true ↔
        6/10 ≤ eligibilityScore v)) ∧
    (∀ p : DriverProfile, checkJurorEligibility p = true ↔
      750 ≤ p.safetyScore ∧ 500 ≤ p.totalRides ∧
      p.accidentHistoryCount = 0) := by
  refine ⟨?_, ?_, ?_, ?_⟩
  · intro hrep
    simp only [calculateValidatorEligibility]
    split_ifs <;> simp_all
  · intro helig
    simp only [calculateValidatorEligibility] at helig ⊢
    split_ifs at helig ⊢ with h1 h2 h3
    all_goals simp_all [not_lt]
  · intro hstake hrep hslash
    simp only [calculateValidatorEligibility,
      if_neg (not_lt.mpr hstake), if_neg (not_lt.mpr hrep), hslash]
    simp
  · intro p
    simp only [checkJurorEligibility]
    simp [ge_iff_le, and_assoc]

/-- Claim C3, witness for the amended theorem at a concrete validator. -/
theorem c3_witness :
    (calculateValidatorEligibility ⟨2000, 300, 0, 0, true, none, none⟩
      0).eligible = false :=
  (c3_amended ⟨2000, 300, 0, 0, true, none, none⟩ 0).1 (by norm_num)

/-! ## Claim C9 — the reporting-delay step function -/

/-- Claim C9, confirmed: for every pair of incident and submission
timestamps, the reporting-delay subscore is 0.3 for a delay below 1 hour,
0.1 from 1 to 24 hours, 0.4 above 24 and up to 168 hours (7 days), and
0.8 beyond 7 days. -/
theorem c9_reporting_delay (incident submitted : ℚ) :
    ((submitted - incident) / (1000 * 60 * 60) < 1 →
      analyzeReportingDelay incident submitted = 3/10) ∧
    (1 ≤ (submitted - incident) / (1000 * 60 * 60) →
      (submitted - incident) / (1000 * 60 * 60) ≤ 24 →
      analyzeReportingDelay incident submitted = 1/10) ∧
    (24 < (submitted - incident) / (1000 * 60 * 60) →
      (submitted - incident) / (1000 * 60 * 60) ≤ 168 →
      analyzeReportingDelay incident submitted = 4/10) ∧
    (168 < (submitted - incident) / (1000 * 60 * 60) →
      analyzeReportingDelay incident submitted = 8/10) := by
  simp only [analyzeReportingDelay]
  refine ⟨fun h1 => ?_, fun h1 h2 => ?_, fun h1 h2 => ?_, fun h1 => ?_⟩ <;>
    split_ifs <;> first | rfl | linarith

/-- Claim C9, witness: a 25-hour delay scores 0.4. -/
theorem c9_witness :
    (24 : ℚ) < (90000000 - 0) / (1000 * 60 * 60) ∧
    (90000000 - (0 : ℚ)) / (1000 * 60 * 60) ≤ 168 ∧
    analyzeReportingDelay 0 90000000 = 4/10 := by
  refine ⟨by norm_num, by norm_num, ?_⟩
  exact (c9_reporting_delay 0 90000000).2.2.1 (by norm_num) (by norm_num)

/-! ## Claim C6 — recommendation tiers of the fraud-scoring paths -/

/-- Claim C6, counterexample: the legacy fraud-scoring path in the claims
route is a second fraud-scoring path of the program and does not follow the
claimed tiers: at fraud score 0.60 (claim over 10,000 plus a historical
pattern hit) it recommends community review, where the claim demands
MANUAL_REVIEW for every path — the advanced scorer indeed yields
MANUAL_REVIEW at the same score. -/
theorem c6_counterexample :
    (calculateFraudScore 15000 2 (1/2) (19/20) 0).fraudScore = 3/5 ∧
    (6/10 : ℚ) ≤ 3/5 ∧ (3/5 : ℚ) < 8/10 ∧
    (calculateFraudScore 15000 2 (1/2) (19/20) 0).recommendation =
      .communityReview ∧
    determineRecommendation (3/5) (3/4) = .manualReview ∧
    LegacyRecommendation.communityReview ≠ .intensiveReview := by
  refine ⟨?_, by norm_num, by norm_num, ?_, ?_, by simp⟩ <;>
    norm_num [calculateFraudScore, determineRecommendation]

/-- Claim C6, amended: the advanced risk scorer's determineRecommendation
follows the claimed thresholds exactly (AUTO_APPROVE below 0.30,
COMMUNITY_REVIEW from 0.30 below 0.60, MANUAL_REVIEW from 0.60 unless both
score and confidence reach 0.80, REJECT at score ≥ 0.80 with
confidence ≥ 0.80); the legacy scoring path calculateFraudScore in the
claims route instead uses auto_approve below 0.30, community_review from
0.30 below 0.70 and intensive_review from 0.70, ignoring confidence. -/
theorem c6_amended (s c : ℚ) :
    (s < 3/10 → determineRecommendation s c = .autoApprove) ∧
    (3/10 ≤ s → s < 6/10 → determineRecommendation s c = .communityReview) ∧
    (6/10 ≤ s → s < 8/10 ∨ c < 8/10 →
      determineRecommendation s c = .manualReview) ∧
    (8/10 ≤ s → 8/10 ≤ c → determineRecommendation s c = .reject) ∧
    (∀ (amount : ℚ) (docs : ℕ) (rT rH rC : ℚ),
      ((calculateFraudScore amount docs rT rH rC).recommendation =
          .autoApprove ↔
        (calculateFraudScore amount docs rT rH rC).fraudScore < 3/10) ∧
      ((calculateFraudScore amount docs rT rH rC).recommendation =
          .communityReview ↔
        3/10 ≤ (calculateFraudScore amount docs rT rH rC).fraudScore ∧
        (calculateFraudScore amount docs rT rH rC).fraudScore < 7/10) ∧
      ((calculateFraudScore amount docs rT rH rC).recommendation =
          .intensiveReview ↔
        7/10 ≤ (calculateFraudScore amount docs rT rH rC).fraudScore)) := by
  refine ⟨?_, ?_, ?_, ?_, ?_⟩
  · intro h
    simp only [determineRecommendation]
    split_ifs <;> first | rfl | (exfalso; push_neg at *; linarith)
  · intro h1 h2
    simp only [determineRecommendation]
    split_ifs <;> first | rfl | (exfalso; push_neg at *; linarith)
  · intro h1 h2
    simp only [determineRecommendation]
    rcases h2 with h2 | h2 <;>
      split_ifs <;> first | rfl | (exfalso; push_neg at *; linarith)
  · intro h1 h2
    simp only [determineRecommendation, if_pos (And.intro h1 h2)]
  · intro amount docs rT rH rC
    simp only [calculateFraudScore]
    split_ifs <;> (try norm_num [min_def]) <;> linarith

/-- Claim C6, witness for the amended theorem: score 0.45 is routed to
community review by the advanced scorer. -/
theorem c6_witness :
    (3/10 : ℚ) ≤ 45/100 ∧ (45/100 : ℚ) < 6/10 ∧
    determineRecommendation (45/100) (78/100) = .communityReview :=
  ⟨by norm_num, by norm_num,
    (c6_amended (45/100) (78/100)).2.1 (by norm_num) (by norm_num)⟩

/-! ## Claim C7 — emergency payout gating and fund debit -/

/-- Claim C7, confirmed: with a well-formed request (positive amount, a
valid reason, an authorizer), the emergency payout executes exactly when
the monitor reports emergency conditions active and the amount is within
the available emergency funds; on success the fund is debited by exactly
the amount (which therefore never exceeds the balance at request time),
and on any failure the fund is unchanged. -/
theorem c7_emergency (claimId : String) (amount : ℚ)
    (reason authorizedBy : String) (stats : PoolStats) (fund : EmergencyFund)
    (now : Int) (hc : claimId ≠ "") (ha : amount > 0)
    (hre : reason ∈ emergencyReasons) (hau : authorizedBy ≠ "") :
    ((emergencyRoute claimId amount reason authorizedBy stats fund now).1 =
        .executed ↔
      checkEmergencyConditions stats = true ∧
      amount ≤ fund.availableAmount) ∧
    ((emergencyRoute claimId amount reason authorizedBy stats fund now).1 =
        .executed →
      (emergencyRoute claimId amount reason authorizedBy stats fund
        now).2.availableAmount = fund.availableAmount - amount) ∧
    ((emergencyRoute claimId amount reason authorizedBy stats fund now).1 ≠
        .executed →
      (emergencyRoute claimId amount reason authorizedBy stats fund now).2 =
        fund) := by
  have hval : ¬ (claimId = "" ∨ ¬ amount > 0 ∨ reason ∉ emergencyReasons ∨
      authorizedBy = "") := by
    push_neg
    exact ⟨hc, ha, hre, hau⟩
  simp only [emergencyRoute, if_neg hval]
  split_ifs with hcond hfund
  · simp_all
  · constructor
    · constructor
      · intro h
        simp at h
      · rintro ⟨-, hle⟩
        linarith
    · simp
  · simp_all [le_of_not_lt, not_lt.mp hfund]

/-- Claim C7, witness: with utilization 0.9 the conditions are active and a
1000 payout from an 800,000 balance executes and debits the fund. -/
theorem c7_witness :
    ((emergencyRoute "c1" 1000 "mass_event" "admin"
        ⟨5000000, 4500000, 45, 600000⟩ ⟨1000000, 800000, none⟩ 7).1 =
      .executed ↔
      checkEmergencyConditions ⟨5000000, 4500000, 45, 600000⟩ = true ∧
      (1000 : ℚ) ≤ 800000) ∧
    ((emergencyRoute "c1" 1000 "mass_event" "admin"
        ⟨5000000, 4500000, 45, 600000⟩ ⟨1000000, 800000, none⟩ 7).1 =
      .executed →
      (emergencyRoute "c1" 1000 "mass_event" "admin"
        ⟨5000000, 4500000, 45, 600000⟩ ⟨1000000, 800000, none⟩
        7).2.availableAmount = 800000 - 1000) ∧
    ((emergencyRoute "c1" 1000 "mass_event" "admin"
        ⟨5000000, 4500000, 45, 600000⟩ ⟨1000000, 800000, none⟩ 7).1 ≠
      .executed →
      (emergencyRoute "c1" 1000 "mass_event" "admin"
        ⟨5000000, 4500000, 45, 600000⟩ ⟨1000000, 800000, none⟩ 7).2 =
      ⟨1000000, 800000, none⟩) :=
  c7_emergency "c1" 1000 "mass_event" "admin"
    ⟨5000000, 4500000, 45, 600000⟩ ⟨1000000, 800000, none⟩ 7
    (by simp) (by norm_num) (by simp [emergencyReasons]) (by simp)

/-! ## Claim C2 — reputation updates at finalization -/

/-- A five-juror session with four approve votes and one deny vote,
consensus reached on approve (Scenario B of the spec). -/
def c2Votes : List Vote :=
  [⟨"v1", "approve", "evidence consistent", 3/4, 1⟩,
   ⟨"v2", "approve", "agree", 3/4, 2⟩,
   ⟨"v3", "approve", "agree", 3/4, 3⟩,
   ⟨"v4", "approve", "agree", 3/4, 4⟩,
   ⟨"v5", "deny", "doubtful", 3/4, 5⟩]

/-- The session holding c2Votes, threshold 0.66. -/
def c2Review : Review :=
  ⟨["v1", "v2", "v3", "v4", "v5"], c2Votes, 172800000, .inReview, 66/100,
    none⟩

/-- A registered validator standing for juror v1, reputation 500. -/
def c2Validator : Validator := ⟨2000, 500, 0, 0, true, none, none⟩

/-- Claim C2, counterexample: finalizing a session that reached consensus
on approve leaves the validator record of juror v1 — who voted approve,
matching the final decision — completely unchanged at reputation 500,
although the claim requires it to rise to 525 (5% reward capped at 1000).
finalizeReview never calls into the validator registry. -/
theorem c2_counterexample :
    (finalizeReviewSystem c2Review [("v1", c2Validator)]).1.status =
      .completed ∧
    (finalizeReviewSystem c2Review [("v1", c2Validator)]).1.finalDecision =
      some "approve" ∧
    (c2Votes.map Vote.juror).contains "v1" = true ∧
    (c2Votes.map Vote.decision).contains "approve" = true ∧
    (finalizeReviewSystem c2Review [("v1", c2Validator)]).2 =
      [("v1", c2Validator)] ∧
    c2Validator.reputation = 500 ∧
    min 1000 (c2Validator.reputation + c2Validator.reputation * (5/100)) =
      525 ∧
    (500 : ℚ) ≠ 525 := by
  have hcc : (checkConsensus c2Review).reached = true ∧
      (checkConsensus c2Review).decision = some "approve" := by
    simp [checkConsensus, c2Review, c2Votes, leadFold, decisionOrder]
    norm_num
  refine ⟨?_, ?_, by simp [c2Votes], by simp [c2Votes], rfl, rfl, ?_, ?_⟩
  · simp [finalizeReviewSystem, finalizeReview, hcc.1]
  · simp [finalizeReviewSystem, finalizeReview, hcc.1, hcc.2]
  · simp [c2Validator]
    norm_num
  · norm_num

/-- Claim C2, amended: finalization only transitions the session status
(completed with the consensus decision, or no_consensus) and performs no
reputation update — the validator registry is unchanged for consensus and
no-consensus outcomes alike.  The 5%-reward-capped-at-1000 /
10%-penalty-floored-at-0 rule exists only in updateValidatorReputation,
which is invoked through the separate vote-result endpoint of the
validators router, not by finalization. -/
theorem c2_amended (r : Review) (vs : ValidatorStore) :
    (finalizeReviewSystem r vs).2 = vs ∧
    ((checkConsensus r).reached = true →
      (finalizeReviewSystem r vs).1.status = .completed ∧
      (finalizeReviewSystem r vs).1.finalDecision =
        (checkConsensus r).decision) ∧
    ((checkConsensus r).reached = false →
      (finalizeReviewSystem r vs).1.status = .noConsensus) ∧
    (∀ (v : Validator) (correct : Bool),
      (updateValidatorReputation v correct).reputation =
        if correct = true then
          min 1000 (v.reputation + v.reputation * (5/100))
        else max 0 (v.reputation - v.reputation * (10/100))) := by
  refine ⟨rfl, fun h => ?_, fun h => ?_, fun v correct => ?_⟩
  · simp [finalizeReviewSystem, finalizeReview, h]
  · simp [finalizeReviewSystem, finalizeReview, h]
  · cases correct <;> simp [updateValidatorReputation]

/-- Claim C2, witness for the amended theorem on the concrete consensus
session and a one-validator store. -/
theorem c2_witness :
    (finalizeReviewSystem c2Review [("v1", c2Validator)]).2 =
      [("v1", c2Validator)] ∧
    (finalizeReviewSystem c2Review [("v1", c2Validator)]).1.status =
      .completed ∧
    (finalizeReviewSystem c2Review [("v1", c2Validator)]).1.finalDecision =
      (checkConsensus c2Review).decision :=
  ⟨(c2_amended c2Review [("v1", c2Validator)]).1,
    (c2_amended c2Review [("v1", c2Validator)]).2.1 (by
      simp [checkConsensus, c2Review, c2Votes, leadFold, decisionOrder]
      norm_num)⟩

/-! ## Validator invariants (claims C8 and C10) -/

lemma stakeActiveAdjust_stakedAmount (v : Validator) :
    (stakeActiveAdjust v).stakedAmount = v.stakedAmount := by
  simp only [stakeActiveAdjust]
  split_ifs <;> rfl

lemma stakeActiveAdjust_reputation (v : Validator) :
    (stakeActiveAdjust v).reputation = v.reputation := by
  simp only [stakeActiveAdjust]
  split_ifs <;> rfl

lemma stakeActiveAdjust_activeMin (v : Validator) :
    (stakeActiveAdjust v).active = true →
    minimumStake ≤ (stakeActiveAdjust v).stakedAmount := by
  simp only [stakeActiveAdjust]
  split_ifs with h1 h2
  · simp
  · intro _
    exact h2.1
  · intro ha
    rcases lt_or_le v.stakedAmount minimumStake with hlt | hle
    · exact absurd ⟨hlt, ha⟩ h1
    · exact hle

/-- One route operation keeps reputation within [0, 1000] and the stake
nonnegative. -/
lemma applyOp_range (v : Validator) (op : VOp) (h0 : 0 ≤ v.reputation)
    (h1 : v.reputation ≤ 1000) (h2 : 0 ≤ v.stakedAmount) :
    0 ≤ (applyOp v op).reputation ∧ (applyOp v op).reputation ≤ 1000 ∧
    0 ≤ (applyOp v op).stakedAmount := by
  cases op with
  | stake action amount =>
    cases action with
    | increase =>
      simp only [applyOp, modifyStake]
      split_ifs with hle
      · exact ⟨h0, h1, h2⟩
      · push_neg at hle
        rw [stakeActiveAdjust_reputation, stakeActiveAdjust_stakedAmount]
        refine ⟨h0, h1, ?_⟩
        simp only []
        show (0 : ℚ) ≤ v.stakedAmount + amount
        linarith
    | decrease =>
      simp only [applyOp, modifyStake]
      split_ifs with hle hneg
      · exact ⟨h0, h1, h2⟩
      · exact ⟨h0, h1, h2⟩
      · push_neg at hneg
        rw [stakeActiveAdjust_reputation, stakeActiveAdjust_stakedAmount]
        exact ⟨h0, h1, by simpa using hneg⟩
  | voteResult correct =>
    cases correct <;> simp only [applyOp, updateValidatorReputation] <;>
      simp only [Bool.false_eq_true, if_false, if_true, reduceIte]
    · exact ⟨le_max_left _ _, max_le (by norm_num) (by linarith), h2⟩
    · exact ⟨le_min (by norm_num) (by linarith), min_le_left _ _, h2⟩
  | slash now =>
    simp only [applyOp, executeSlashing]
    split_ifs with hlow
    · exact ⟨le_max_left _ _, max_le (by norm_num) (by linarith), by
        simp
        linarith⟩
    · exact ⟨le_max_left _ _, max_le (by norm_num) (by linarith), by
        simp
        linarith⟩

/-- One route operation preserves the active-implies-minimum-stake
invariant. -/
lemma applyOp_activeMin (v : Validator) (op : VOp)
    (h : v.active = true → minimumStake ≤ v.stakedAmount) :
    (applyOp v op).active = true →
    minimumStake ≤ (applyOp v op).stakedAmount := by
  cases op with
  | stake action amount =>
    cases action with
    | increase =>
      simp only [applyOp, modifyStake]
      split_ifs with hle
      · exact h
      · exact stakeActiveAdjust_activeMin _
    | decrease =>
      simp only [applyOp, modifyStake]
      split_ifs with hle hneg
      · exact h
      · exact h
      · exact stakeActiveAdjust_activeMin _
  | voteResult correct =>
    cases correct <;> simp only [applyOp, updateValidatorReputation] <;>
      simpa using h
  | slash now =>
    simp only [applyOp, executeSlashing]
    split_ifs with hlow
    · intro hact
      simp at hact
    · intro _
      simpa using le_of_not_lt hlow

lemma runOps_range (v : Validator) (ops : List VOp) (h0 : 0 ≤ v.reputation)
    (h1 : v.reputation ≤ 1000) (h2 : 0 ≤ v.stakedAmount) :
    0 ≤ (runOps v ops).reputation ∧ (runOps v ops).reputation ≤ 1000 ∧
    0 ≤ (runOps v ops).stakedAmount := by
  induction ops generalizing v with
  | nil => exact ⟨h0, h1, h2⟩
  | cons op ops ih =>
    have hstep := applyOp_range v op h0 h1 h2
    simpa [runOps] using ih (applyOp v op) hstep.1 hstep.2.1 hstep.2.2

lemma runOps_activeMin (v : Validator) (ops : List VOp)
    (h : v.active = true → minimumStake ≤ v.stakedAmount) :
    (runOps v ops).active = true →
    minimumStake ≤ (runOps v ops).stakedAmount := by
  induction ops generalizing v with
  | nil => exact h
  | cons op ops ih =>
    simpa [runOps] using ih (applyOp v op) (applyOp_activeMin v op h)

/-- The fresh validator produced by a successful registration. -/
lemma registerValidator_eq (s : ℚ) (v : Validator)
    (h : registerValidator s = some v) :
    minimumStake ≤ s ∧ v = ⟨s, 500, 0, 0, true, none, none⟩ := by
  simp only [registerValidator] at h
  split_ifs at h with hs
  cases h
  exact ⟨le_of_not_lt hs, rfl⟩

/-! ## Claim C8 — reputation and stake ranges -/

/-- Claim C8, confirmed: from any successful registration, every sequence
of stake modifications, vote-result reputation updates and slashings
leaves the reputation within [0, 1000] and the staked amount
nonnegative. -/
theorem c8_validator_ranges (s : ℚ) (v : Validator)
    (h : registerValidator s = some v) (ops : List VOp) :
    0 ≤ (runOps v ops).reputation ∧ (runOps v ops).reputation ≤ 1000 ∧
    0 ≤ (runOps v ops).stakedAmount := by
  obtain ⟨hs, hv⟩ := registerValidator_eq s v h
  subst hv
  refine runOps_range _ ops (by norm_num) (by norm_num) ?_
  show (0 : ℚ) ≤ s
  have : (0 : ℚ) ≤ minimumStake := by norm_num [minimumStake]
  linarith

/-- Claim C8, witness: a slash, a correct vote and a 300-token withdrawal
after registering with 1500 keep the record in range. -/
theorem c8_witness :
    registerValidator 1500 = some ⟨1500, 500, 0, 0, true, none, none⟩ ∧
    (0 ≤ (runOps ⟨1500, 500, 0, 0, true, none, none⟩
        [.slash 0, .voteResult true, .stake .decrease 300]).reputation ∧
      (runOps ⟨1500, 500, 0, 0, true, none, none⟩
        [.slash 0, .voteResult true, .stake .decrease 300]).reputation ≤
        1000 ∧
      0 ≤ (runOps ⟨1500, 500, 0, 0, true, none, none⟩
        [.slash 0, .voteResult true, .stake .decrease 300]).stakedAmount) :=
  ⟨by norm_num [registerValidator, minimumStake],
    c8_validator_ranges 1500 ⟨1500, 500, 0, 0, true, none, none⟩
      (by norm_num [registerValidator, minimumStake])
      [.slash 0, .voteResult true, .stake .decrease 300]⟩

/-! ## Claim C10 — active validators hold at least the minimum stake -/

/-- Claim C10, confirmed: registration requires the minimum stake, stake
changes and slashes that leave the stake below the minimum deactivate the
validator, and reactivation demands the stake back at the minimum — so on
every state reachable from a successful registration, an active validator
holds at least the minimum stake. -/
theorem c10_active_min_stake (s : ℚ) (v : Validator)
    (h : registerValidator s = some v) (ops : List VOp) :
    (runOps v ops).active = true →
    minimumStake ≤ (runOps v ops).stakedAmount := by
  obtain ⟨hs, hv⟩ := registerValidator_eq s v h
  subst hv
  exact runOps_activeMin _ ops fun _ => hs

/-- Claim C10, witness: after registering with 1500 and adding 500 stake,
the validator is active and the invariant yields stake ≥ 1000. -/
theorem c10_witness :
    (runOps ⟨1500, 500, 0, 0, true, none, none⟩
      [.stake .increase 500]).active = true ∧
    minimumStake ≤ (runOps ⟨1500, 500, 0, 0, true, none, none⟩
      [.stake .increase 500]).stakedAmount := by
  have hact : (runOps ⟨1500, 500, 0, 0, true, none, none⟩
      [.stake .increase 500]).active = true := by
    norm_num [runOps, applyOp, modifyStake, stakeActiveAdjust, minimumStake]
  exact ⟨hact, c10_active_min_stake 1500 ⟨1500, 500, 0, 0, true, none, none⟩
    (by norm_num [registerValidator, minimumStake]) [.stake .increase 500]
    hact⟩

/-! ## Consensus-scan lemmas (claims C4 and C5) -/

lemma mem_decisionOrder_aux (l acc : List String) (x : String)
    (h : x ∈ l ∨ x ∈ acc) :
    x ∈ l.foldl (fun acc d => if d ∈ acc then acc else acc ++ [d]) acc := by
  induction l generalizing acc with
  | nil => simpa using h.resolve_left (by simp)
  | cons d ds ih =>
    simp only [List.foldl_cons]
    apply ih
    rcases h with h | h
    · rcases List.mem_cons.mp h with rfl | h
      · right
        by_cases hd : x ∈ acc <;> simp [hd]
      · left
        exact h
    · right
      by_cases hd : d ∈ acc <;> simp [hd, h]

/-- Every decision that occurs among the votes appears as a key of the
grouped vote counts. -/
lemma mem_decisionOrder (l : List String) (x : String) (h : x ∈ l) :
    x ∈ decisionOrder l :=
  mem_decisionOrder_aux l [] x (Or.inl h)

lemma leadScan_fst_ge (l ds : List String) (acc : ℕ × Option String) :
    acc.1 ≤ (ds.foldl
      (fun acc d => if l.count d > acc.1 then (l.count d, some d) else acc)
      acc).1 := by
  induction ds generalizing acc with
  | nil => exact le_rfl
  | cons e es ih =>
    simp only [List.foldl_cons]
    refine le_trans ?_ (ih _)
    by_cases hc : l.count e > acc.1 <;> simp [hc]
    exact le_of_lt hc

lemma leadScan_count_le (l ds : List String) (acc : ℕ × Option String)
    (d : String) (h : d ∈ ds) :
    l.count d ≤ (ds.foldl
      (fun acc d => if l.count d > acc.1 then (l.count d, some d) else acc)
      acc).1 := by
  induction ds generalizing acc with
  | nil => cases h
  | cons e es ih =>
    simp only [List.foldl_cons]
    rcases List.mem_cons.mp h with rfl | h
    · refine le_trans ?_ (leadScan_fst_ge l es _)
      by_cases hc : l.count d > acc.1 <;> simp [hc]
      exact le_of_not_lt hc
    · exact ih _ h

lemma leadScan_attain (l ds : List String) (acc : ℕ × Option String) :
    (ds.foldl
      (fun acc d => if l.count d > acc.1 then (l.count d, some d) else acc)
      acc) = acc ∨
    ∃ d ∈ ds, (ds.foldl
      (fun acc d => if l.count d > acc.1 then (l.count d, some d) else acc)
      acc).2 = some d ∧
      l.count d = (ds.foldl
        (fun acc d => if l.count d > acc.1 then (l.count d, some d) else acc)
        acc).1 := by
  induction ds generalizing acc with
  | nil =>
    left
    rfl
  | cons e es ih =>
    simp only [List.foldl_cons]
    rcases ih (if l.count e > acc.1 then (l.count e, some e) else acc) with
      h | ⟨d, hd, h2, h3⟩
    · by_cases hc : l.count e > acc.1
      · right
        refine ⟨e, List.mem_cons_self e es, ?_, ?_⟩ <;> rw [h] <;>
          simp [hc]
      · left
        rw [h]
        simp [hc]
    · right
      exact ⟨d, List.mem_cons_of_mem e hd, h2, h3⟩

/-- The leading-decision scan returns a decision of maximal count whenever
at least one vote was recorded. -/
lemma leadFold_spec (l : List String) (hl : l ≠ []) :
    ∃ d, (leadFold l).2 = some d ∧ l.count d = (leadFold l).1 ∧
      ∀ x, l.count x ≤ (leadFold l).1 := by
  obtain ⟨e, he⟩ : ∃ e, e ∈ l := List.exists_mem_of_ne_nil l hl
  have hmax : ∀ x, l.count x ≤ (leadFold l).1 := by
    intro x
    by_cases hx : x ∈ l
    · exact leadScan_count_le l (decisionOrder l) (0, none) x
        (mem_decisionOrder l x hx)
    · simp [List.count_eq_zero.mpr hx]
  rcases leadScan_attain l (decisionOrder l) (0, none) with h | ⟨d, _, h2, h3⟩
  · exfalso
    have hpos : 0 < l.count e := List.count_pos_iff.mpr he
    have := hmax e
    rw [show leadFold l = (0, none) from h] at this
    omega
  · exact ⟨d, h2, h3, hmax⟩

lemma finalizeReview_votes (r : Review) :
    (finalizeReview r).votes = r.votes := by
  simp only [finalizeReview]
  split_ifs <;> rfl

/-! ## Claim C5 — consensus evaluation and finalization -/

/-- Claim C5, confirmed: on a session with at least one recorded vote,
checkConsensus reports a leading decision of maximal count among the
recorded votes, consensus is reached exactly when the leading share of the
votes recorded so far is at least the session threshold, and finalization
marks the session completed with the leading decision on consensus and
no_consensus below threshold. -/
theorem c5_consensus (r : Review) (hv : r.votes ≠ []) :
    ∃ d, (checkConsensus r).decision = some d ∧
      (∀ x, (r.votes.map Vote.decision).count x ≤
        (r.votes.map Vote.decision).count d) ∧
      ((checkConsensus r).reached = true ↔
        ((r.votes.map Vote.decision).count d : ℚ) / (r.votes.length : ℚ) ≥
          r.consensusThreshold) ∧
      ((checkConsensus r).reached = true →
        (finalizeReview r).status = .completed ∧
        (finalizeReview r).finalDecision = some d) ∧
      ((checkConsensus r).reached = false →
        (finalizeReview r).status = .noConsensus ∧
        (finalizeReview r).finalDecision = r.finalDecision) := by
  obtain ⟨d, hd2, hd1, hmax⟩ :=
    leadFold_spec (r.votes.map Vote.decision) (by simpa using hv)
  have hcc : checkConsensus r =
      ⟨decide (((leadFold (r.votes.map Vote.decision)).1 : ℚ) /
          (r.votes.length : ℚ) ≥ r.consensusThreshold),
        (leadFold (r.votes.map Vote.decision)).2,
        round (((leadFold (r.votes.map Vote.decision)).1 : ℚ) /
          (r.votes.length : ℚ) * 100)⟩ := by
    simp only [checkConsensus, if_neg hv]
  refine ⟨d, ?_, ?_, ?_, ?_, ?_⟩
  · rw [hcc]
    exact hd2
  · intro x
    rw [hd1]
    exact hmax x
  · rw [hcc]
    simp only [decide_eq_true_eq, hd1]
  · intro hreach
    have hfin : finalizeReview r =
        { r with status := .completed,
                 finalDecision := (checkConsensus r).decision } := by
      simp [finalizeReview, hreach]
    rw [hfin, hcc]
    exact ⟨rfl, hd2⟩
  · intro hreach
    have hfin : finalizeReview r = { r with status := .noConsensus } := by
      simp [finalizeReview, hreach]
    rw [hfin]
    exact ⟨rfl, rfl⟩

/-- A three-juror session: two approve votes against one deny vote, so the
leading share 2/3 just clears the 0.66 threshold. -/
def c5Review : Review :=
  ⟨["a", "b", "c"],
    [⟨"a", "approve", "ok", 3/4, 1⟩, ⟨"b", "approve", "ok", 3/4, 2⟩,
     ⟨"c", "deny", "no", 3/4, 3⟩],
    172800000, .inReview, 66/100, none⟩

/-- Claim C5, witness on the concrete three-vote session. -/
theorem c5_witness :
    c5Review.votes ≠ [] ∧
    (∃ d, (checkConsensus c5Review).decision = some d ∧
      (∀ x, (c5Review.votes.map Vote.decision).count x ≤
        (c5Review.votes.map Vote.decision).count d) ∧
      ((checkConsensus c5Review).reached = true ↔
        ((c5Review.votes.map Vote.decision).count d : ℚ) /
          (c5Review.votes.length : ℚ) ≥ c5Review.consensusThreshold) ∧
      ((checkConsensus c5Review).reached = true →
        (finalizeReview c5Review).status = .completed ∧
        (finalizeReview c5Review).finalDecision = some d) ∧
      ((checkConsensus c5Review).reached = false →
        (finalizeReview c5Review).status = .noConsensus ∧
        (finalizeReview c5Review).finalDecision = c5Review.finalDecision)) :=
  ⟨by simp [c5Review], c5_consensus c5Review (by simp [c5Review])⟩

/-! ## Claim C4 — vote submission gates -/

/-- Claim C4, confirmed: on a well-formed vote request, submission fails
Forbidden for a juror outside the panel, Conflict for a juror who already
voted, Gone past the deadline — each leaving the recorded votes untouched —
and otherwise appends exactly one vote; consequently one-vote-per-juror is
preserved by every submission. -/
theorem c4_vote_submission (r : Review) (juror decision reasoning : String)
    (confidence : Option ℚ) (now : Int) (hj : juror ≠ "")
    (hd : decision ∈ validDecisions) (hr : reasoning ≠ "") :
    (juror ∉ r.jurors →
      voteRoute r juror decision reasoning confidence now = (.forbidden, r)) ∧
    (juror ∈ r.jurors → juror ∈ r.votes.map Vote.juror →
      voteRoute r juror decision reasoning confidence now = (.conflict, r)) ∧
    (juror ∈ r.jurors → juror ∉ r.votes.map Vote.juror → now > r.deadline →
      voteRoute r juror decision reasoning confidence now = (.gone, r)) ∧
    (juror ∈ r.jurors → juror ∉ r.votes.map Vote.juror →
      ¬ now > r.deadline →
      (voteRoute r juror decision reasoning confidence now).1 = .ok ∧
      (voteRoute r juror decision reasoning confidence now).2.votes =
        r.votes ++ [⟨juror, decision, reasoning, confDefault confidence,
          now⟩]) ∧
    ((r.votes.map Vote.juror).Nodup →
      ((voteRoute r juror decision reasoning confidence
        now).2.votes.map Vote.juror).Nodup) := by
  have hdne : decision ≠ "" := by
    rintro rfl
    simp [validDecisions] at hd
  have hval : ¬ (juror = "" ∨ decision = "" ∨ reasoning = "") := by
    push_neg
    exact ⟨hj, hdne, hr⟩
  refine ⟨?_, ?_, ?_, ?_, ?_⟩
  · intro hnm
    simp only [voteRoute, if_neg hval, if_neg (not_not_intro hd),
      if_pos hnm]
  · intro hmem hvoted
    simp only [voteRoute, if_neg hval, if_neg (not_not_intro hd),
      if_neg (not_not_intro hmem), if_pos hvoted]
  · intro hmem hnv hlate
    simp only [voteRoute, if_neg hval, if_neg (not_not_intro hd),
      if_neg (not_not_intro hmem), if_neg hnv, if_pos hlate]
  · intro hmem hnv hontime
    simp only [voteRoute, if_neg hval, if_neg (not_not_intro hd),
      if_neg (not_not_intro hmem), if_neg hnv, if_neg hontime]
    split_ifs with hfull
    · exact ⟨rfl, by rw [finalizeReview_votes]⟩
    · exact ⟨rfl, rfl⟩
  · intro hnd
    simp only [voteRoute, if_neg hval, if_neg (not_not_intro hd)]
    split_ifs with hmemb hvoted hlate hfull
    · exact hnd
    · exact hnd
    · dsimp only
      rw [finalizeReview_votes]
      simp only [List.map_append, List.map_cons, List.map_nil]
      simp [List.nodup_append, hnd, hvoted]
    · dsimp only
      simp only [List.map_append, List.map_cons, List.map_nil]
      simp [List.nodup_append, hnd, hvoted]
    · exact hnd

/-- Claim C4, witness: on a fresh two-juror session before the deadline,
juror a's approve vote is recorded as the single vote. -/
theorem c4_witness :
    (voteRoute ⟨["a", "b"], [], 100, .inReview, 66/100, none⟩ "a" "approve"
      "evidence checks out" none 50).1 = .ok ∧
    (voteRoute ⟨["a", "b"], [], 100, .inReview, 66/100, none⟩ "a" "approve"
      "evidence checks out" none 50).2.votes =
      [] ++ [⟨"a", "approve", "evidence checks out", confDefault none, 50⟩] :=
  (c4_vote_submission ⟨["a", "b"], [], 100, .inReview, 66/100, none⟩ "a"
    "approve" "evidence checks out" none 50 (by simp)
    (by simp [validDecisions]) (by simp)).2.2.2.1 (by simp) (by simp)
    (by norm_num)

end RideshareBridge
